import Mathlib

/-!
# wine-label: handler and client

A shallow embedding of the two Go programs of the repository:

* `wine-label/handler/handler.go`: the transaction handler (`Apply`, `DecodeCBOR`,
  `EncodeCBOR`, `Hexdigest`);
* `wine-label-client/client/client.go`: the client (`Set`, `Delete`, `sendTransaction`,
  `sendRequest`, `getStatus`, `getAddress`, `createBatchList`, `Sha512HashValue`).

Library code the programs call into (SHA-512, the CBOR codec, protobuf serialisation, the
signer, the state store behind `processor.Context`, the HTTP transport) is taken as given
functions, passed as parameters. Go `string`s that carry text are Lean `String`s, `[]byte`
is a list of byte values, and `[]byte(s)` is the UTF-8 encoding of `s`.
-/

/-- A Go `[]byte`: a list of byte values (each used modulo 256). -/
abbrev Bytes := List Nat

/-- The 64 bytes that `sha512.New()`, `Write(b)`, `Sum(nil)` produce for the input `b`. -/
abbrev Digest := Fin 64 → Nat

/-- UTF-8 encoding of one code point, as Go's `[]byte(string)` conversion lays it out. -/
def utf8EncodeNat (c : Nat) : Bytes :=
  if c < 0x80 then [c]
  else if c < 0x800 then [0xC0 + c / 64, 0x80 + c % 64]
  else if c < 0x10000 then [0xE0 + c / 4096, 0x80 + c / 64 % 64, 0x80 + c % 64]
  else [0xF0 + c / 262144, 0x80 + c / 4096 % 64, 0x80 + c / 64 % 64, 0x80 + c % 64]

/-- Go's `[]byte(s)` for a text string `s`. -/
def stringBytes (s : String) : Bytes :=
  s.data.flatMap fun c => utf8EncodeNat c.toNat

/-- The digit table of `encoding/hex`: `"0123456789abcdef"[n]`. -/
def hexDigit (n : Nat) : Char :=
  "0123456789abcdef".data.getD n '0'

/-- Go's `hex.EncodeToString`: two digits per byte, high nibble first. -/
def EncodeToString (src : Bytes) : String :=
  ⟨src.flatMap fun b => [hexDigit (b % 256 / 16), hexDigit (b % 16)]⟩

/-- Go's `strings.ToLower`, on the ASCII range. -/
def ToLower (s : String) : String :=
  ⟨s.data.map Char.toLower⟩

/-- Go's `s[lo:]` on a string of single-byte characters. -/
def sliceFrom (s : String) (lo : Nat) : String :=
  ⟨s.data.drop lo⟩

/-- Go's `s[:hi]` on a string of single-byte characters. -/
def sliceTo (s : String) (hi : Nat) : String :=
  ⟨s.data.take hi⟩

namespace handler

/-- The handler's `Payload` struct. -/
structure Payload where
  WineLabelID : String
  PrintedAt : String
  Longitude : String
  Lattitude : String
  deriving DecidableEq, Repr

/-- The handler's `WineLabelPayload` struct: an embedded `Payload` and the verb. -/
structure WineLabelPayload extends Payload where
  Verb : String
  deriving DecidableEq, Repr

/-- The zero value `Payload{}`. -/
def Payload.zero : Payload := ⟨"", "", "", ""⟩

/-- The zero value of `WineLabelPayload`, what `var payload WineLabelPayload` declares. -/
def WineLabelPayload.zero : WineLabelPayload := ⟨Payload.zero, ""⟩

/-- The errors of the `processor` package that `Apply` returns or passes on. -/
inductive ProcessorError where
  | InvalidTransactionError (Msg : String)
  | InternalError (Msg : String)
  | AuthorizationException (Msg : String)
  deriving DecidableEq, Repr

/-- How a call of `cbor.Loads(data, pointer)` ends: it returns an error value (`none` is
`nil`) or it panics; either way `pointee` is what the pointed-to struct then holds. -/
inductive LoadsOutcome where
  | returned (pointee : WineLabelPayload) (err : Option String)
  | panicked (pointee : WineLabelPayload)

/-- The `processor.Context` handed to `Apply`: the two calls of the state store. A Go
`map[string][]byte` is an association list, looked up by key. -/
structure Context where
  GetState : List String → Except ProcessorError (List (String × Bytes))
  SetState : List (String × Bytes) → Except ProcessorError (List String)

/-- One call on the context, as `Apply` issues it. -/
inductive StateOp where
  | get (addresses : List String)
  | set (entries : List (String × Bytes))
  deriving DecidableEq, Repr

/-- The library functions the handler calls. -/
structure Lib where
  -- the `crypto/sha512` digest of a byte string
  sha512 : Bytes → Digest
  -- the call `cbor.Loads(data, &payload)` on the zero-valued `payload`
  loads : Bytes → LoadsOutcome
  -- the call `cbor.Dumps(value)` on a `Payload`: the data and the error (`none` is `nil`)
  dumps : Payload → Bytes × Option String

def MAX_NAME_LENGTH : Nat := 20

def FAMILY_NAME : String := "wine-label"

/-- The function `Hexdigest`: lowercase hex of the SHA-512 digest of the string's bytes. -/
def Hexdigest (lib : Lib) (str : String) : String :=
  let hashBytes := List.ofFn (lib.sha512 (stringBytes str))
  ToLower (EncodeToString hashBytes)

/-- The function `EncodeCBOR`: the data and the error of `cbor.Dumps`, as they come. -/
def EncodeCBOR (lib : Lib) (value : Payload) : Bytes × Option String :=
  let (data, err) := lib.dumps value
  (data, err)

/-- The function `DecodeCBOR`: the returned error (`none` is `nil`) and what the pointed-to
payload holds afterwards. The deferred function recovers a panic of `cbor.Loads`; the value it returns is
dropped, and the function's unnamed result keeps its zero value `nil`. -/
def DecodeCBOR (lib : Lib) (data : Bytes) : Option String × WineLabelPayload :=
  match lib.loads data with
  | .panicked pointee => (none, pointee)
  | .returned pointee (some err) => (some err, pointee)
  | .returned pointee none => (none, pointee)

/-- The address `Apply` derives for a label id: the namespace followed by the last 64
characters of the digest of the id, `hashed_labled_id[len(hashed_labled_id)-64:]`. -/
def addressOf (lib : Lib) (namespace_ : String) (WineLabelID : String) : String :=
  let hashed_labled_id := Hexdigest lib WineLabelID
  namespace_ ++ sliceFrom hashed_labled_id (hashed_labled_id.length - 64)

/-- The method `Apply` of a handler with the given namespace, on the request's payload
(`none` is a `nil` payload): the returned error (`none` is `nil`) and the calls made on the
context, in order. The slice in `addressOf` is always in range, the digest being 128
characters long. The second `if err != nil` of the source
follows a return on the same condition and is never entered. -/
def Apply (lib : Lib) (namespace_ : String) (payloadData : Option Bytes) (context : Context) :
    Option ProcessorError × List StateOp :=
  match payloadData with
  | none => (some (.InvalidTransactionError "Must contain payload"), [])
  | some payloadData =>
    let (err, payload) := DecodeCBOR lib payloadData
    match err with
    | some err => (some (.InvalidTransactionError ("Failed to decode payload: " ++ err)), [])
    | none =>
      let verb := payload.Verb
      let id := payload.WineLabelID
      let state : Payload :=
        ⟨payload.WineLabelID, payload.PrintedAt, payload.Lattitude, payload.Longitude⟩
      if id.length = 0 then
        (some (.InvalidTransactionError
          ("Should be valid wine label ID" ++ "%!(EXTRA int=" ++ toString MAX_NAME_LENGTH ++ ")")), [])
      else if ¬ (verb = "set" ∨ verb = "del") then
        (some (.InvalidTransactionError ("Invalid verb: " ++ verb)), [])
      else
        let address := addressOf lib namespace_ payload.WineLabelID
        match context.GetState [address] with
        | .error err => (some err, [.get [address]])
        | .ok results =>
          let data :=
            match results.lookup address with
            | some _ => if verb = "del" then (EncodeCBOR lib Payload.zero).1
                        else (EncodeCBOR lib state).1
            | none => (EncodeCBOR lib state).1
          match context.SetState [(address, data)] with
          | .error err => (some err, [.get [address], .set [(address, data)]])
          | .ok addresses =>
            if addresses.length = 0 then
              (some (.InternalError "No addresses in set response"),
                [.get [address], .set [(address, data)]])
            else
              (none, [.get [address], .set [(address, data)]])

end handler

namespace client

def FAMILY_NAME : String := "wine-label"

def FAMILY_VERSION : String := "1.0"

def BATCH_SUBMIT_API : String := "batches"

def BATCH_STATUS_API : String := "batch_statuses"

def STATE_API : String := "state"

def CONTENT_TYPE_OCTET_STREAM : String := "application/octet-stream"

def FAMILY_NAMESPACE_ADDRESS_LENGTH : Nat := 6

def FAMILY_VERB_ADDRESS_LENGTH : Nat := 64

/-- The `signing.Signer` of the client: `GetPublicKey().AsHex()` and `Sign`. -/
structure Signer where
  publicKeyHex : String
  Sign : Bytes → Bytes

/-- The client value: the REST URL and the signer bound at construction. -/
structure WineLabelClient where
  url : String
  signer : Signer

/-- The client's `Payload` struct. -/
structure Payload where
  WineLabelID : String
  PrintedAt : String
  Longitude : String
  Lattitude : String
  deriving DecidableEq, Repr

/-- The client's `WineLabelPayload` struct: an embedded `Payload` and the verb. -/
structure WineLabelPayload extends Payload where
  Verb : String
  deriving DecidableEq, Repr

/-- The fields of `transaction_pb2.TransactionHeader` that the client sets. -/
structure TransactionHeader where
  SignerPublicKey : String
  FamilyName : String
  FamilyVersion : String
  Dependencies : List String
  Nonce : String
  BatcherPublicKey : String
  Inputs : List String
  Outputs : List String
  PayloadSha512 : String
  deriving DecidableEq, Repr

/-- The message `transaction_pb2.Transaction`. -/
structure Transaction where
  Header : Bytes
  HeaderSignature : String
  Payload : Bytes
  deriving DecidableEq, Repr

/-- The fields of `batch_pb2.BatchHeader` that the client sets. -/
structure BatchHeader where
  SignerPublicKey : String
  TransactionIds : List String
  deriving DecidableEq, Repr

/-- The message `batch_pb2.Batch`. -/
structure Batch where
  Header : Bytes
  Transactions : List Transaction
  HeaderSignature : String
  deriving DecidableEq, Repr

/-- The message `batch_pb2.BatchList`. -/
structure BatchList where
  Batches : List Batch
  deriving DecidableEq, Repr

/-- An HTTP request as `sendRequest` issues it: `http.Post(url, contentType, body)` or
`http.Get(url)`. -/
inductive Request where
  | Post (url : String) (contentType : String) (body : Bytes)
  | Get (url : String)
  deriving DecidableEq, Repr

/-- What `sendRequest` looks at in an `http.Response`: the status code, the status line
and the outcome of `ioutil.ReadAll(response.Body)`. -/
structure Response where
  StatusCode : Nat
  Status : String
  Body : Except String String

/-- The library functions and the environment the client calls. -/
structure Lib where
  -- the `crypto/sha512` digest of a byte string
  sha512 : Bytes → Digest
  -- the call `cbor.Dumps(payloadData)`
  dumps : WineLabelPayload → Except String Bytes
  -- the calls of `proto.Marshal`, one per message type
  marshalTransactionHeader : TransactionHeader → Except String Bytes
  marshalBatchHeader : BatchHeader → Except String Bytes
  marshalBatchList : BatchList → Except String Bytes
  -- the error of `yaml.Unmarshal` on a response (`none` is `nil`)
  yamlUnmarshal : String → Option String
  -- the REST endpoint: the answer to a request, given the requests made before it
  http : List Request → Request → Except String Response
  -- the value of `rand.Int()`
  randInt : Nat
  -- the value of `time.Now().Sub(startTime)` at its k-th evaluation, as a `uint`
  elapsed : Nat → Nat

/-- How a call of a client method ends: it returns its `(string, error)` pair, it panics, or
the model runs out of fuel in the status loop. -/
inductive Outcome where
  | returned (r : Except String String)
  | panicked
  | outOfFuel
  deriving Repr

/-- The function `Sha512HashValue`: lowercase hex of the SHA-512 digest. A Go string is a
byte sequence and the function only hashes it, so the argument is given as its bytes
(`stringBytes s` for a text `s`, the bytes themselves for `string(payload)`). -/
def Sha512HashValue (lib : Lib) (value : Bytes) : String :=
  ToLower (EncodeToString (List.ofFn (lib.sha512 value)))

/-- The method `getPrefix`: the first 6 characters of the digest of the family name. -/
def getPrefix (lib : Lib) : String :=
  sliceTo (Sha512HashValue lib (stringBytes FAMILY_NAME)) FAMILY_NAMESPACE_ADDRESS_LENGTH

/-- The method `getAddress`: the family prefix followed by the digest of the name from
index 64 on. -/
def getAddress (lib : Lib) (name : String) : String :=
  let pfx := getPrefix lib
  let nameAddress := sliceFrom (Sha512HashValue lib (stringBytes name)) FAMILY_VERB_ADDRESS_LENGTH
  pfx ++ nameAddress

/-- Go's `strings.HasPrefix`. -/
def HasPrefix (s : String) (p : String) : Bool :=
  p.data.isPrefixOf s.data

/-- The method `sendRequest`, given the requests made so far: the returned pair and the
requests made up to its return. -/
def sendRequest (lib : Lib) (self : WineLabelClient) (log : List Request)
    (apiSuffix : String) (data : Bytes) (contentType : String) (name : String) :
    Except String String × List Request :=
  let url :=
    if HasPrefix self.url "http://" then self.url ++ "/" ++ apiSuffix
    else "http://" ++ self.url ++ "/" ++ apiSuffix
  let request := if data.length > 0 then Request.Post url contentType data else Request.Get url
  match lib.http log request with
  | .error err => (.error ("Failed to connect to REST API: " ++ err), log ++ [request])
  | .ok response =>
    if response.StatusCode = 404 then
      (.error ("No such key: " ++ name), log ++ [request])
    else if response.StatusCode ≥ 400 then
      (.error ("Error " ++ toString response.StatusCode ++ ": " ++ response.Status),
        log ++ [request])
    else
      match response.Body with
      | .error err => (.error ("Error reading response: " ++ err), log ++ [request])
      | .ok reponseBody => (.ok reponseBody, log ++ [request])

/-- The method `getStatus`. After a successful `yaml.Unmarshal` the expression
`responseMap["data"].([]interface{})[0].(WineLabelPayload)` panics, no value decoded from
YAML having the type `WineLabelPayload`. -/
def getStatus (lib : Lib) (self : WineLabelClient) (log : List Request)
    (batchId : String) (wait : Nat) : Outcome × List Request :=
  let apiSuffix := BATCH_STATUS_API ++ "?id=" ++ batchId ++ "&wait=" ++ toString wait
  match sendRequest lib self log apiSuffix [] "" "" with
  | (.error err, log1) => (.returned (.error err), log1)
  | (.ok response, log1) =>
    match lib.yamlUnmarshal response with
    | some err => (.returned (.error ("Error reading response: " ++ err)), log1)
    | none => (.panicked, log1)

/-- The method `createBatchList`. -/
def createBatchList (lib : Lib) (self : WineLabelClient) (transactions : List Transaction) :
    Except String BatchList :=
  let transactionSignatures := transactions.map fun transaction => transaction.HeaderSignature
  let rawBatchHeader : BatchHeader :=
    { SignerPublicKey := self.signer.publicKeyHex
      TransactionIds := transactionSignatures }
  match lib.marshalBatchHeader rawBatchHeader with
  | .error err => .error ("Unable to serialize batch header: " ++ err)
  | .ok batchHeader =>
    let batchHeaderSignature := EncodeToString (self.signer.Sign batchHeader)
    let batch : Batch :=
      { Header := batchHeader
        Transactions := transactions
        HeaderSignature := batchHeaderSignature }
    .ok { Batches := [batch] }

/-- The payload struct that `sendTransaction` fills in (its first lines). -/
def payloadDataOf (verb labelID location long lat : String) : WineLabelPayload :=
  { Verb := verb
    WineLabelID := labelID
    PrintedAt := location
    Longitude := long
    Lattitude := lat }

/-- The `rawTransactionHeader` that `sendTransaction` constructs for the given label id and
encoded payload. -/
def rawTransactionHeaderOf (lib : Lib) (self : WineLabelClient) (labelID : String)
    (payload : Bytes) : TransactionHeader :=
  let address := getAddress lib labelID
  { SignerPublicKey := self.signer.publicKeyHex
    FamilyName := FAMILY_NAME
    FamilyVersion := FAMILY_VERSION
    Dependencies := []
    Nonce := toString lib.randInt
    BatcherPublicKey := self.signer.publicKeyHex
    Inputs := [address]
    Outputs := [address]
    PayloadSha512 := Sha512HashValue lib payload }

/-- The part of `sendTransaction` that builds the transaction: encode the payload, derive
the address, construct and serialise the header, sign it, construct the transaction. -/
def buildTransaction (lib : Lib) (self : WineLabelClient)
    (verb labelID location long lat : String) : Except String Transaction :=
  let payloadData := payloadDataOf verb labelID location long lat
  match lib.dumps payloadData with
  | .error err => .error ("Failed to construct CBOR: " ++ err)
  | .ok payload =>
    let rawTransactionHeader := rawTransactionHeaderOf lib self labelID payload
    match lib.marshalTransactionHeader rawTransactionHeader with
    | .error err => .error ("Unable to serialize transaction header: " ++ err)
    | .ok transactionHeader =>
      let transactionHeaderSignature := EncodeToString (self.signer.Sign transactionHeader)
      .ok { Header := transactionHeader
            HeaderSignature := transactionHeaderSignature
            Payload := payload }

/-- The status loop of `sendTransaction` (`for waitTime < wait`), entered at the k-th
reading of the clock with the given `waitTime`. -/
def pollLoop (lib : Lib) (self : WineLabelClient) (batchId response : String) (wait : Nat) :
    Nat → Nat → Nat → List Request → Outcome × List Request
  | 0, _, waitTime, log =>
    if waitTime < wait then (.outOfFuel, log) else (.returned (.ok response), log)
  | fuel + 1, k, waitTime, log =>
    if waitTime < wait then
      match getStatus lib self log batchId (wait - waitTime) with
      | (.returned (.error err), log1) => (.returned (.error err), log1)
      | (.returned (.ok status), log1) =>
        let waitTime1 := lib.elapsed k % 2 ^ 64
        if status ≠ "PENDING" then (.returned (.ok response), log1)
        else pollLoop lib self batchId response wait fuel (k + 1) waitTime1 log1
      | (outcome, log1) => (outcome, log1)
    else (.returned (.ok response), log)

/-- The method `sendTransaction`, given the requests made so far and the fuel of the status
loop: how the call ends and the requests made up to then. -/
def sendTransaction (lib : Lib) (self : WineLabelClient) (fuel : Nat) (log : List Request)
    (verb labelID location long lat : String) (wait : Nat) : Outcome × List Request :=
  match buildTransaction lib self verb labelID location long lat with
  | .error err => (.returned (.error err), log)
  | .ok transaction =>
    match createBatchList lib self [transaction] with
    | .error err => (.returned (.error ("Unable to construct batch list: " ++ err)), log)
    | .ok rawBatchList =>
      match rawBatchList.Batches with
      | [] => (.panicked, log)
      | batch :: _ =>
        let batchId := batch.HeaderSignature
        match lib.marshalBatchList rawBatchList with
        | .error err => (.returned (.error ("Unable to serialize batch list: " ++ err)), log)
        | .ok batchList =>
          if wait > 0 then
            let waitTime := 0
            match sendRequest lib self log BATCH_SUBMIT_API batchList
                CONTENT_TYPE_OCTET_STREAM labelID with
            | (.error err, log1) => (.returned (.error err), log1)
            | (.ok response, log1) =>
              pollLoop lib self batchId response wait fuel 0 waitTime log1
          else
            let (r, log1) := sendRequest lib self log BATCH_SUBMIT_API batchList
              CONTENT_TYPE_OCTET_STREAM labelID
            (.returned r, log1)

/-- The method `Set`. -/
def Set (lib : Lib) (self : WineLabelClient) (fuel : Nat) (log : List Request)
    (labelID location long lat : String) (wait : Nat) : Outcome × List Request :=
  sendTransaction lib self fuel log "set" labelID location long lat wait

/-- The method `Delete`. -/
def Delete (lib : Lib) (self : WineLabelClient) (fuel : Nat) (log : List Request)
    (labelID : String) (wait : Nat) : Outcome × List Request :=
  let _ := labelID
  sendTransaction lib self fuel log "delete" "" "" "" "" wait

end client

/-! ## The address rule in the words of the specification -/

/-- A sample digest function: byte `i` of the digest is the sum of the input plus `i`. -/
def sampleSha512 : Bytes → Digest :=
  fun b i => (b.sum + i.val) % 256

/-- A sample encoder of the records: the four fields, each followed by a zero byte. -/
def sampleDumps (v : handler.Payload) : Bytes × Option String :=
  (stringBytes v.WineLabelID ++ [0] ++ stringBytes v.PrintedAt ++ [0]
    ++ stringBytes v.Longitude ++ [0] ++ stringBytes v.Lattitude ++ [0], none)

/-- A sample handler library whose decoder returns the payload `p` for every input. -/
def handler.sampleLib (p : handler.WineLabelPayload) : handler.Lib :=
  { sha512 := sampleSha512
    loads := fun _ => .returned p none
    dumps := sampleDumps }

/-- A sample handler library whose decoder panics, leaving `p` in the payload. -/
def handler.panickingLib (p : handler.WineLabelPayload) : handler.Lib :=
  { sha512 := sampleSha512
    loads := fun _ => .panicked p
    dumps := sampleDumps }

/-- A sample state store holding `prior`: a read returns the entries at the addresses asked
for, a write is acknowledged with the addresses written. -/
def handler.sampleContext (prior : List (String × Bytes)) : handler.Context :=
  { GetState := fun addresses => .ok (prior.filter fun e => addresses.contains e.1)
    SetState := fun entries => .ok (entries.map Prod.fst) }

/-- The reads in a trace of context calls: the address lists asked for. -/
def handler.reads : List handler.StateOp → List (List String)
  | [] => []
  | .get addresses :: ops => addresses :: handler.reads ops
  | .set _ :: ops => handler.reads ops

/-- The writes in a trace of context calls: the entry lists written. -/
def handler.writes : List handler.StateOp → List (List (String × Bytes))
  | [] => []
  | .get _ :: ops => handler.writes ops
  | .set entries :: ops => entries :: handler.writes ops

/-- A sample client library: every serialiser succeeds, the endpoint answers 200. -/
def client.sampleLib : client.Lib :=
  { sha512 := sampleSha512
    dumps := fun p => .ok (stringBytes p.Verb ++ [0] ++ stringBytes p.WineLabelID ++ [0]
      ++ stringBytes p.PrintedAt ++ [0] ++ stringBytes p.Longitude ++ [0]
      ++ stringBytes p.Lattitude ++ [0])
    marshalTransactionHeader := fun h => .ok (stringBytes h.Nonce ++ [0]
      ++ stringBytes h.PayloadSha512)
    marshalBatchHeader := fun h => .ok (stringBytes h.SignerPublicKey ++ [0]
      ++ h.TransactionIds.flatMap stringBytes)
    marshalBatchList := fun l => .ok (l.Batches.flatMap fun b => 10 :: b.Header)
    yamlUnmarshal := fun _ => none
    http := fun _ _ => .ok { StatusCode := 200, Status := "200 OK", Body := .ok "ok" }
    randInt := 7
    elapsed := fun k => k + 1 }

/-- A sample client: a signer that signs a message with its first eight bytes. -/
def client.sampleClient : client.WineLabelClient :=
  { url := "127.0.0.1:8008"
    signer := { publicKeyHex := "02ab", Sign := fun m => m.take 8 } }

/-- The last `n` characters of a string, the `s[-n:]` of the specification. -/
def lastChars (s : String) (n : Nat) : String :=
  ⟨(s.data.reverse.take n).reverse⟩

/-! ## Hex digests and addresses -/

theorem EncodeToString_length (src : Bytes) : (EncodeToString src).length = 2 * src.length := by
  unfold EncodeToString
  show (List.flatMap _ _).length = _
  induction src with
  | nil => rfl
  | cons b t ih => simp only [List.flatMap_cons, List.length_append, ih, List.length_cons,
      List.length_nil]; omega

theorem ToLower_length (s : String) : (ToLower s).length = s.length := by
  show (s.data.map Char.toLower).length = s.data.length
  simp

namespace handler

theorem Hexdigest_length (lib : Lib) (str : String) : (Hexdigest lib str).length = 128 := by
  unfold Hexdigest
  simp [ToLower_length, EncodeToString_length]

end handler

namespace client

theorem Sha512HashValue_length (lib : Lib) (value : Bytes) :
    (Sha512HashValue lib value).length = 128 := by
  unfold Sha512HashValue
  simp [ToLower_length, EncodeToString_length]

end client

theorem drop_eq_last (l : List Char) (n : Nat) :
    l.drop (l.length - n) = (l.reverse.take n).reverse := by
  rw [List.take_reverse, List.reverse_reverse]

namespace handler

/-- C1: what `Apply` does on a `set` transaction with a non-empty id when the state store
answers the read and acknowledges the write. It reads the derived address and writes there
the encoding of a record whose id and printed_at are the payload's, whose `Longitude` is the
payload's latitude and whose `Lattitude` is the payload's longitude: the two coordinates
are exchanged. -/
theorem Apply_set_writes_exchanged_coordinates (lib : Lib) (ns : String) (data : Bytes)
    (context : Context) (id printedAt longitude latitude : String)
    (results : List (String × Bytes)) (addresses : List String)
    (hdec : lib.loads data = .returned ⟨⟨id, printedAt, longitude, latitude⟩, "set"⟩ none)
    (hid : id ≠ "")
    (hget : context.GetState [addressOf lib ns id] = .ok results)
    (hset : context.SetState [(addressOf lib ns id,
      (EncodeCBOR lib { WineLabelID := id, PrintedAt := printedAt,
                        Longitude := latitude, Lattitude := longitude }).1)] = .ok addresses)
    (hack : addresses ≠ []) :
    Apply lib ns (some data) context
      = (none, [.get [addressOf lib ns id],
          .set [(addressOf lib ns id,
            (EncodeCBOR lib { WineLabelID := id, PrintedAt := printedAt,
                              Longitude := latitude, Lattitude := longitude }).1)]]) := by
  have hid2 : id.length ≠ 0 := by
    intro h
    exact hid (String.ext (List.eq_nil_of_length_eq_zero h))
  unfold Apply
  simp only [DecodeCBOR, hdec]
  simp [hid2, hget]
  cases hl : results.lookup (addressOf lib ns id) <;> simp [hset, hack]

/-- Witness of C1 at id `"abc"`, printed_at `"Napa"`, longitude `"-122.27"`, latitude
`"38.57"`, against empty prior state: the record written has `Longitude` `"38.57"` and
`Lattitude` `"-122.27"`, which is not the record of the payload. -/
theorem Apply_set_writes_exchanged_coordinates_witness :
    (Apply (sampleLib ⟨⟨"abc", "Napa", "-122.27", "38.57"⟩, "set"⟩) "5b7349" (some [1])
        (sampleContext [])).2
      = [.get [addressOf (sampleLib ⟨⟨"abc", "Napa", "-122.27", "38.57"⟩, "set"⟩) "5b7349" "abc"],
         .set [(addressOf (sampleLib ⟨⟨"abc", "Napa", "-122.27", "38.57"⟩, "set"⟩) "5b7349" "abc",
            (sampleDumps ⟨"abc", "Napa", "38.57", "-122.27"⟩).1)]]
    ∧ (sampleDumps ⟨"abc", "Napa", "38.57", "-122.27"⟩).1
        ≠ (sampleDumps ⟨"abc", "Napa", "-122.27", "38.57"⟩).1 :=
  ⟨congrArg Prod.snd
    (Apply_set_writes_exchanged_coordinates
      (sampleLib ⟨⟨"abc", "Napa", "-122.27", "38.57"⟩, "set"⟩) "5b7349" [1] (sampleContext [])
      "abc" "Napa" "-122.27" "38.57" [] _ rfl (by decide) rfl rfl (by simp)),
   by decide⟩

/-- C3: for a decodable payload with a non-empty id, `Apply` rejects with the invalid-verb
`InvalidTransactionError` exactly when the verb is neither `"set"` nor `"del"`; the verb
`"delete"`, which the client sends, is therefore rejected and nothing is read or written. -/
theorem Apply_invalid_verb_iff (lib : Lib) (ns : String) (data : Bytes) (context : Context)
    (p : WineLabelPayload) (hdec : DecodeCBOR lib data = (none, p))
    (hid : p.WineLabelID ≠ "") :
    (Apply lib ns (some data) context
        = (some (.InvalidTransactionError ("Invalid verb: " ++ p.Verb)), [])
      ↔ ¬ (p.Verb = "set" ∨ p.Verb = "del"))
    ∧ (p.Verb = "delete" → Apply lib ns (some data) context
        = (some (.InvalidTransactionError "Invalid verb: delete"), [])) := by
  have hid2 : p.WineLabelID.length ≠ 0 := by
    intro h
    exact hid (String.ext (List.eq_nil_of_length_eq_zero h))
  have hrej : ¬ (p.Verb = "set" ∨ p.Verb = "del") → Apply lib ns (some data) context
      = (some (.InvalidTransactionError ("Invalid verb: " ++ p.Verb)), []) := by
    intro hv
    unfold Apply
    simp only [hdec]
    simp only [hid2, hv, if_false, not_false_eq_true, if_true]
  refine ⟨⟨?_, hrej⟩, ?_⟩
  · intro happ hv
    have htr := congrArg Prod.snd happ
    unfold Apply at htr
    simp only [hdec] at htr
    simp only [hid2, hv, if_false, not_true_eq_false] at htr
    cases hg : context.GetState [addressOf lib ns p.WineLabelID] with
    | error e => simp [hg] at htr
    | ok results =>
      simp only [hg] at htr
      split at htr
      · simp at htr
      · split at htr <;> simp at htr
  · intro hv
    have h := hrej (by rw [hv]; decide)
    rw [hv] at h
    exact h

/-- Witness of C3 at the payload with id `"abc"` and verb `"delete"`. -/
theorem Apply_invalid_verb_iff_witness :
    Apply (sampleLib ⟨⟨"abc", "", "", ""⟩, "delete"⟩) "5b7349" (some [1]) (sampleContext [])
      = (some (.InvalidTransactionError "Invalid verb: delete"), []) :=
  (Apply_invalid_verb_iff (sampleLib ⟨⟨"abc", "", "", ""⟩, "delete"⟩) "5b7349" [1]
    (sampleContext []) ⟨⟨"abc", "", "", ""⟩, "delete"⟩ rfl (by decide)).2 rfl

/-- C5: for every decodable payload whose record id is empty, `Apply` returns the missing-id
`InvalidTransactionError`, whatever the verb and the other fields are, and touches no
state. -/
theorem Apply_empty_id_rejected (lib : Lib) (ns : String) (data : Bytes) (context : Context)
    (p : WineLabelPayload) (hdec : DecodeCBOR lib data = (none, p))
    (hid : p.WineLabelID = "") :
    Apply lib ns (some data) context
      = (some (.InvalidTransactionError "Should be valid wine label ID%!(EXTRA int=20)"),
          []) := by
  unfold Apply
  simp only [hdec, hid]
  rfl

/-- Witness of C5 at the empty id with the invalid verb `"frobnicate"`. -/
theorem Apply_empty_id_rejected_witness :
    Apply (sampleLib ⟨⟨"", "Napa", "1", "2"⟩, "frobnicate"⟩) "5b7349" (some [1])
        (sampleContext [])
      = (some (.InvalidTransactionError "Should be valid wine label ID%!(EXTRA int=20)"),
          []) :=
  Apply_empty_id_rejected (sampleLib ⟨⟨"", "Napa", "1", "2"⟩, "frobnicate"⟩) "5b7349" [1]
    (sampleContext []) ⟨⟨"", "Napa", "1", "2"⟩, "frobnicate"⟩ rfl rfl

/-- C6: when `cbor.Loads` returns an error, `DecodeCBOR` returns it and `Apply` rejects the
payload as malformed; when `cbor.Loads` panics, `DecodeCBOR` returns `nil`, and `Apply` goes
on exactly as if the decoder had returned, without error, what the payload held at the
panic. -/
theorem DecodeCBOR_panic_returns_nil (lib : Lib) (data : Bytes) (pointee : WineLabelPayload) :
    (∀ err, lib.loads data = .returned pointee (some err) →
      (DecodeCBOR lib data).1 = some err
      ∧ ∀ ns context, Apply lib ns (some data) context
          = (some (.InvalidTransactionError ("Failed to decode payload: " ++ err)), []))
    ∧ (lib.loads data = .panicked pointee →
      (DecodeCBOR lib data).1 = none
      ∧ ∀ ns context, Apply lib ns (some data) context
          = Apply { lib with loads := fun _ => .returned pointee none } ns (some data)
              context) := by
  constructor
  · intro err h
    refine ⟨by simp [DecodeCBOR, h], ?_⟩
    intro ns context
    unfold Apply
    simp [DecodeCBOR, h]
  · intro h
    refine ⟨by simp [DecodeCBOR, h], ?_⟩
    intro ns context
    unfold Apply
    simp only [DecodeCBOR, h]
    rfl

/-- Witness of C6: the decoder panics after filling in id `"abc"` and verb `"set"`;
`DecodeCBOR` returns `nil` and `Apply` accepts the transaction and writes state. -/
theorem DecodeCBOR_panic_returns_nil_witness :
    (DecodeCBOR (panickingLib ⟨⟨"abc", "", "", ""⟩, "set"⟩) [1]).1 = none
    ∧ (Apply (panickingLib ⟨⟨"abc", "", "", ""⟩, "set"⟩) "5b7349" (some [1])
        (sampleContext [])).1 = none :=
  have h := (DecodeCBOR_panic_returns_nil (panickingLib ⟨⟨"abc", "", "", ""⟩, "set"⟩) [1]
    ⟨⟨"abc", "", "", ""⟩, "set"⟩).2 rfl
  ⟨h.1, by rw [h.2]; rfl⟩

end handler

namespace handler

end handler

namespace handler

theorem Apply_trace_of_valid (lib : Lib) (ns : String) (data : Bytes) (context : Context)
    (p : WineLabelPayload) (hdec : DecodeCBOR lib data = (none, p))
    (hid : p.WineLabelID ≠ "") (hverb : p.Verb = "set" ∨ p.Verb = "del") :
    (Apply lib ns (some data) context).2 = [.get [addressOf lib ns p.WineLabelID]]
    ∨ ∃ d, (Apply lib ns (some data) context).2
        = [.get [addressOf lib ns p.WineLabelID], .set [(addressOf lib ns p.WineLabelID, d)]] := by
  have hid2 : p.WineLabelID.length ≠ 0 := by
    intro h
    exact hid (String.ext (List.eq_nil_of_length_eq_zero h))
  unfold Apply
  simp only [hdec]
  simp only [hid2, hverb, if_false, not_true_eq_false]
  cases hg : context.GetState [addressOf lib ns p.WineLabelID] with
  | error e => exact Or.inl rfl
  | ok results =>
    right
    simp only []
    split
    · exact ⟨_, rfl⟩
    · split <;> exact ⟨_, rfl⟩

theorem Apply_trace_of_invalid (lib : Lib) (ns : String) (data : Bytes) (context : Context)
    (h : (DecodeCBOR lib data).1 ≠ none ∨ (DecodeCBOR lib data).2.WineLabelID = ""
      ∨ ¬ ((DecodeCBOR lib data).2.Verb = "set" ∨ (DecodeCBOR lib data).2.Verb = "del")) :
    (Apply lib ns (some data) context).2 = [] := by
  rcases hd : DecodeCBOR lib data with ⟨err, p⟩
  rw [hd] at h
  unfold Apply
  simp only [hd]
  cases err with
  | some e => rfl
  | none =>
    simp only []
    by_cases hid : p.WineLabelID.length = 0
    · simp [hid]
    · have hne : p.WineLabelID ≠ "" := by
        intro h0
        rw [h0] at hid
        exact hid rfl
      rcases h with h | h | h
      · exact absurd rfl h
      · exact absurd h hne
      · simp only [hid, h, if_false, not_false_eq_true, if_true]

/-- C9, counterexample: an invocation rejected in validation (a nil payload, or the verb
`"frobnicate"`) performs no state read at all, not exactly one. -/
theorem rejected_Apply_reads_nothing :
    (reads (Apply (sampleLib WineLabelPayload.zero) "5b7349" none (sampleContext [])).2).length
      = 0
    ∧ (reads (Apply (sampleLib ⟨⟨"abc", "", "", ""⟩, "frobnicate"⟩) "5b7349" (some [1])
        (sampleContext [])).2).length ≠ 1 :=
  ⟨rfl, by
    have h : (Apply (sampleLib ⟨⟨"abc", "", "", ""⟩, "frobnicate"⟩) "5b7349" (some [1])
        (sampleContext [])).2 = [] :=
      Apply_trace_of_invalid _ _ _ _ (Or.inr (Or.inr (by decide)))
    rw [h]
    decide⟩

/-- C9, amended: every invocation of `Apply` performs at most one state read and at most one
state write. An invocation whose payload decodes without error, has a non-empty id and a
verb that passes the verb check performs exactly one read, of the single address derived
from the id, and whatever it writes is one entry at that same address. An invocation
rejected before that (nil payload, decode error, empty id, invalid verb) performs no read
and no write. -/
theorem Apply_state_access (lib : Lib) (ns : String) (payloadData : Option Bytes)
    (context : Context) :
    (reads (Apply lib ns payloadData context).2).length ≤ 1
    ∧ (writes (Apply lib ns payloadData context).2).length ≤ 1
    ∧ (∀ data p, payloadData = some data → DecodeCBOR lib data = (none, p) →
        p.WineLabelID ≠ "" → (p.Verb = "set" ∨ p.Verb = "del") →
        reads (Apply lib ns payloadData context).2 = [[addressOf lib ns p.WineLabelID]]
        ∧ ∀ entries ∈ writes (Apply lib ns payloadData context).2,
            ∃ d, entries = [(addressOf lib ns p.WineLabelID, d)])
    ∧ ((payloadData = none ∨ ∃ data, payloadData = some data
          ∧ ((DecodeCBOR lib data).1 ≠ none ∨ (DecodeCBOR lib data).2.WineLabelID = ""
            ∨ ¬ ((DecodeCBOR lib data).2.Verb = "set" ∨ (DecodeCBOR lib data).2.Verb = "del"))) →
        (Apply lib ns payloadData context).2 = []) := by
  have hvalid : ∀ data p, payloadData = some data → DecodeCBOR lib data = (none, p) →
      p.WineLabelID ≠ "" → (p.Verb = "set" ∨ p.Verb = "del") →
      reads (Apply lib ns payloadData context).2 = [[addressOf lib ns p.WineLabelID]]
      ∧ (writes (Apply lib ns payloadData context).2).length ≤ 1
      ∧ ∀ entries ∈ writes (Apply lib ns payloadData context).2,
          ∃ d, entries = [(addressOf lib ns p.WineLabelID, d)] := by
    intro data p hp hdec hid hverb
    subst hp
    rcases Apply_trace_of_valid lib ns data context p hdec hid hverb with h | ⟨d, h⟩
    · rw [h]
      simp [reads, writes]
    · rw [h]
      simp [reads, writes]
  have hinvalid : (payloadData = none ∨ ∃ data, payloadData = some data
        ∧ ((DecodeCBOR lib data).1 ≠ none ∨ (DecodeCBOR lib data).2.WineLabelID = ""
          ∨ ¬ ((DecodeCBOR lib data).2.Verb = "set" ∨ (DecodeCBOR lib data).2.Verb = "del"))) →
      (Apply lib ns payloadData context).2 = [] := by
    rintro (h | ⟨data, h, hbad⟩)
    · subst h
      rfl
    · subst h
      exact Apply_trace_of_invalid lib ns data context hbad
  have hcases : (reads (Apply lib ns payloadData context).2).length ≤ 1
      ∧ (writes (Apply lib ns payloadData context).2).length ≤ 1 := by
    cases hp : payloadData with
    | none =>
      have h := hinvalid (Or.inl hp)
      rw [hp] at h
      rw [h]
      simp [reads, writes]
    | some data =>
      by_cases hbad : (DecodeCBOR lib data).1 ≠ none ∨ (DecodeCBOR lib data).2.WineLabelID = ""
          ∨ ¬ ((DecodeCBOR lib data).2.Verb = "set" ∨ (DecodeCBOR lib data).2.Verb = "del")
      · have h := hinvalid (Or.inr ⟨data, hp, hbad⟩)
        rw [hp] at h
        rw [h]
        simp [reads, writes]
      · have h1 : (DecodeCBOR lib data).1 = none :=
          Classical.not_not.mp fun hn => hbad (Or.inl hn)
        have h2 : (DecodeCBOR lib data).2.WineLabelID ≠ "" :=
          fun hn => hbad (Or.inr (Or.inl hn))
        have h3 : (DecodeCBOR lib data).2.Verb = "set" ∨ (DecodeCBOR lib data).2.Verb = "del" :=
          Classical.not_not.mp fun hn => hbad (Or.inr (Or.inr hn))
        have hdec : DecodeCBOR lib data = (none, (DecodeCBOR lib data).2) := by
          rw [← h1]
        have h := hvalid data _ hp hdec h2 h3
        rw [hp] at h
        rw [h.1]
        exact ⟨by simp, h.2.1⟩
  exact ⟨hcases.1, hcases.2, fun data p hp hdec hid hverb =>
    ⟨(hvalid data p hp hdec hid hverb).1, (hvalid data p hp hdec hid hverb).2.2⟩, hinvalid⟩

/-- Witness of C9's amended statement: a `set` of id `"abc"` against an empty store reads
the derived address once and writes one entry at it. -/
theorem Apply_state_access_witness :
    reads (Apply (sampleLib ⟨⟨"abc", "Napa", "-122.27", "38.57"⟩, "set"⟩) "5b7349" (some [1])
        (sampleContext [])).2
      = [[addressOf (sampleLib ⟨⟨"abc", "Napa", "-122.27", "38.57"⟩, "set"⟩) "5b7349" "abc"]]
    ∧ (writes (Apply (sampleLib ⟨⟨"abc", "Napa", "-122.27", "38.57"⟩, "set"⟩) "5b7349"
        (some [1]) (sampleContext [])).2).length ≤ 1 :=
  have h := Apply_state_access (sampleLib ⟨⟨"abc", "Napa", "-122.27", "38.57"⟩, "set"⟩)
    "5b7349" (some [1]) (sampleContext [])
  ⟨(h.2.2.1 [1] ⟨⟨"abc", "Napa", "-122.27", "38.57"⟩, "set"⟩ rfl rfl (by decide)
    (Or.inl rfl)).1, h.2.1⟩

end handler

namespace client

theorem sendRequest_log (lib : Lib) (self : WineLabelClient) (log : List Request)
    (apiSuffix : String) (data : Bytes) (contentType name : String) :
    (sendRequest lib self log apiSuffix data contentType name).2
      = log ++ [if data.length > 0 then
          Request.Post (if HasPrefix self.url "http://" then self.url ++ "/" ++ apiSuffix
            else "http://" ++ self.url ++ "/" ++ apiSuffix) contentType data
        else
          Request.Get (if HasPrefix self.url "http://" then self.url ++ "/" ++ apiSuffix
            else "http://" ++ self.url ++ "/" ++ apiSuffix)] := by
  unfold sendRequest
  simp only []
  split
  · rfl
  · split
    · rfl
    · split
      · rfl
      · split <;> rfl

/-- C7: the transaction that `Delete(labelID, wait)` builds does not depend on `labelID`.
`Delete` calls `sendTransaction` with the verb `"delete"` and the empty string as label id,
so the payload carries the verb `"delete"` and the record id `""`, and the header declares
the address of `""` as its single input and single output. -/
theorem Delete_ignores_labelID (lib : Lib) (self : WineLabelClient) (fuel : Nat)
    (log : List Request) (labelID : String) (wait : Nat) :
    Delete lib self fuel log labelID wait
      = sendTransaction lib self fuel log "delete" "" "" "" "" wait
    ∧ (payloadDataOf "delete" "" "" "" "").Verb = "delete"
    ∧ (payloadDataOf "delete" "" "" "" "").WineLabelID = ""
    ∧ (∀ payload, (rawTransactionHeaderOf lib self "" payload).Inputs = [getAddress lib ""]
        ∧ (rawTransactionHeaderOf lib self "" payload).Outputs = [getAddress lib ""])
    ∧ ∀ otherID, Delete lib self fuel log labelID wait = Delete lib self fuel log otherID wait :=
  ⟨rfl, rfl, rfl, fun _ => ⟨rfl, rfl⟩, fun _ => rfl⟩

theorem getStatus_log (lib : Lib) (self : WineLabelClient) (log : List Request)
    (batchId : String) (wait : Nat) :
    ∃ request, (getStatus lib self log batchId wait).2 = log ++ [request] := by
  have h := sendRequest_log lib self log
    (BATCH_STATUS_API ++ "?id=" ++ batchId ++ "&wait=" ++ toString wait) [] "" ""
  unfold getStatus
  simp only []
  rcases hs : sendRequest lib self log
    (BATCH_STATUS_API ++ "?id=" ++ batchId ++ "&wait=" ++ toString wait) [] "" "" with ⟨r, log1⟩
  rw [hs] at h
  simp only [] at h
  cases r with
  | error err => exact ⟨_, h⟩
  | ok response =>
    simp only []
    split <;> exact ⟨_, h⟩

theorem pollLoop_log (lib : Lib) (self : WineLabelClient) (batchId response : String)
    (wait : Nat) : ∀ (fuel k waitTime : Nat) (log : List Request),
    ∃ rest, (pollLoop lib self batchId response wait fuel k waitTime log).2 = log ++ rest := by
  intro fuel
  induction fuel with
  | zero =>
    intro k waitTime log
    unfold pollLoop
    split <;> exact ⟨[], (List.append_nil log).symm⟩
  | succ fuel ih =>
    intro k waitTime log
    unfold pollLoop
    by_cases hw : waitTime < wait
    · simp only [hw, if_true]
      obtain ⟨request, hreq⟩ := getStatus_log lib self log batchId (wait - waitTime)
      rcases hg : getStatus lib self log batchId (wait - waitTime) with ⟨o, log1⟩
      rw [hg] at hreq
      simp only [] at hreq
      subst hreq
      cases o with
      | returned r =>
        cases r with
        | error err => exact ⟨[request], rfl⟩
        | ok status =>
          simp only []
          split
          · exact ⟨[request], rfl⟩
          · obtain ⟨rest, hrest⟩ := ih (k + 1) (lib.elapsed k % 2 ^ 64) (log ++ [request])
            exact ⟨request :: rest, by rw [hrest]; simp⟩
      | panicked => exact ⟨[request], rfl⟩
      | outOfFuel => exact ⟨[request], rfl⟩
    · simp only [hw, if_false]
      exact ⟨[], (List.append_nil log).symm⟩

/-- C8: let `payload` be the encoding of the verb `"set"` with the record, and `header` the
serialisation of the header whose signer and batcher public keys are the signer's public
key, whose dependency list is empty, whose input list and output list are each exactly the
address of the record id and whose payload hash is the hash of `payload`. Then the
transaction `Set` builds has `header` as its header, the hex encoding of the signer's
signature over `header` as its header signature and `payload` as its payload; and, the
batch serialisers succeeding, the first request `Set` issues is the POST of the serialised
batch list whose only batch holds exactly that transaction. -/
theorem Set_builds_transaction (lib : Lib) (self : WineLabelClient)
    (id printedAt longitude latitude : String) (payload header : Bytes)
    (hdumps : lib.dumps ⟨⟨id, printedAt, longitude, latitude⟩, "set"⟩ = .ok payload)
    (hmarshal : lib.marshalTransactionHeader
      { SignerPublicKey := self.signer.publicKeyHex
        FamilyName := "wine-label"
        FamilyVersion := "1.0"
        Dependencies := []
        Nonce := toString lib.randInt
        BatcherPublicKey := self.signer.publicKeyHex
        Inputs := [getAddress lib id]
        Outputs := [getAddress lib id]
        PayloadSha512 := Sha512HashValue lib payload } = .ok header) :
    buildTransaction lib self "set" id printedAt longitude latitude
      = .ok { Header := header
              HeaderSignature := EncodeToString (self.signer.Sign header)
              Payload := payload }
    ∧ ∀ (batchHeader batchList : Bytes),
        lib.marshalBatchHeader
          { SignerPublicKey := self.signer.publicKeyHex
            TransactionIds := [EncodeToString (self.signer.Sign header)] } = .ok batchHeader →
        lib.marshalBatchList
          { Batches := [{ Header := batchHeader
                          Transactions := [{ Header := header
                                             HeaderSignature :=
                                               EncodeToString (self.signer.Sign header)
                                             Payload := payload }]
                          HeaderSignature := EncodeToString (self.signer.Sign batchHeader) }] }
          = .ok batchList →
        batchList ≠ [] →
        ∀ (fuel : Nat) (log : List Request) (wait : Nat),
          ∃ rest, (Set lib self fuel log id printedAt longitude latitude wait).2
            = log ++ Request.Post
                (if HasPrefix self.url "http://" then self.url ++ "/" ++ "batches"
                  else "http://" ++ self.url ++ "/" ++ "batches")
                "application/octet-stream" batchList :: rest := by
  have hp : payloadDataOf "set" id printedAt longitude latitude
      = ⟨⟨id, printedAt, longitude, latitude⟩, "set"⟩ := rfl
  have hh : rawTransactionHeaderOf lib self id payload
      = { SignerPublicKey := self.signer.publicKeyHex
          FamilyName := "wine-label"
          FamilyVersion := "1.0"
          Dependencies := []
          Nonce := toString lib.randInt
          BatcherPublicKey := self.signer.publicKeyHex
          Inputs := [getAddress lib id]
          Outputs := [getAddress lib id]
          PayloadSha512 := Sha512HashValue lib payload } := rfl
  have hbuild : buildTransaction lib self "set" id printedAt longitude latitude
      = .ok { Header := header
              HeaderSignature := EncodeToString (self.signer.Sign header)
              Payload := payload } := by
    unfold buildTransaction
    simp only [hp, hdumps, hh, hmarshal]
  refine ⟨hbuild, ?_⟩
  intro batchHeader batchList hbh hbl hne fuel log wait
  have hcb : createBatchList lib self
      [{ Header := header
         HeaderSignature := EncodeToString (self.signer.Sign header)
         Payload := payload }]
      = .ok { Batches := [{ Header := batchHeader
                            Transactions := [{ Header := header
                                               HeaderSignature :=
                                                 EncodeToString (self.signer.Sign header)
                                               Payload := payload }]
                            HeaderSignature :=
                              EncodeToString (self.signer.Sign batchHeader) }] } := by
    unfold createBatchList
    simp only [List.map_cons, List.map_nil, hbh]
  have hpos : batchList.length > 0 := List.length_pos.mpr hne
  have hlog := sendRequest_log lib self log BATCH_SUBMIT_API batchList
    CONTENT_TYPE_OCTET_STREAM id
  simp only [hpos, if_true] at hlog
  unfold Set sendTransaction
  simp only [hbuild, hcb, hbl]
  rcases hs : sendRequest lib self log BATCH_SUBMIT_API batchList
    CONTENT_TYPE_OCTET_STREAM id with ⟨r, log1⟩
  rw [hs] at hlog
  simp only [] at hlog
  by_cases hw : wait > 0
  · simp only [hw, if_true]
    cases r with
    | error err => exact ⟨[], hlog⟩
    | ok response =>
      simp only []
      obtain ⟨rest, hrest⟩ := pollLoop_log lib self
        (EncodeToString (self.signer.Sign batchHeader)) response wait fuel 0 0 log1
      refine ⟨rest, ?_⟩
      rw [hrest, hlog]
      simp [BATCH_SUBMIT_API, CONTENT_TYPE_OCTET_STREAM]
  · simp only [hw, if_false]
    exact ⟨[], hlog⟩

/-- Witness of C8 at the record `abc`, `Napa`, `-122.27`, `38.57` with the sample
library and client: `Set` with `wait = 0` posts the serialised batch list that holds the
transaction built. -/
theorem Set_builds_transaction_witness :
    ∃ payload header batchList,
      buildTransaction sampleLib sampleClient "set" "abc" "Napa" "-122.27" "38.57"
        = .ok { Header := header
                HeaderSignature := EncodeToString (sampleClient.signer.Sign header)
                Payload := payload }
      ∧ ∃ rest, (Set sampleLib sampleClient 0 [] "abc" "Napa" "-122.27" "38.57" 0).2
          = [] ++ Request.Post
              (if HasPrefix sampleClient.url "http://" then sampleClient.url ++ "/" ++ "batches"
                else "http://" ++ sampleClient.url ++ "/" ++ "batches")
              "application/octet-stream" batchList :: rest :=
  ⟨_, _, _,
    (Set_builds_transaction sampleLib sampleClient "abc" "Napa" "-122.27" "38.57" _ _
      rfl rfl).1,
    (Set_builds_transaction sampleLib sampleClient "abc" "Napa" "-122.27" "38.57" _ _
      rfl rfl).2 _ _ rfl rfl (List.cons_ne_nil _ _) 0 [] 0⟩

/-- C10: when the transaction and the batch list are built and serialised (to a non-empty
byte string), `sendTransaction` with `wait = 0` issues exactly one request, the POST of the
serialised batch list to the `batches` endpoint with the octet-stream content type, and
returns the result of that submission unchanged. -/
theorem sendTransaction_no_wait (lib : Lib) (self : WineLabelClient) (fuel : Nat)
    (log : List Request) (verb labelID location long lat : String)
    (transaction : Transaction) (rawBatchList : BatchList) (batchList : Bytes)
    (hbuild : buildTransaction lib self verb labelID location long lat = .ok transaction)
    (hbatch : createBatchList lib self [transaction] = .ok rawBatchList)
    (hmarshal : lib.marshalBatchList rawBatchList = .ok batchList)
    (hne : batchList ≠ []) :
    (sendTransaction lib self fuel log verb labelID location long lat 0).2
      = log ++ [Request.Post
          (if HasPrefix self.url "http://" then self.url ++ "/" ++ "batches"
            else "http://" ++ self.url ++ "/" ++ "batches")
          "application/octet-stream" batchList]
    ∧ (sendTransaction lib self fuel log verb labelID location long lat 0).1
      = .returned (sendRequest lib self log "batches" batchList "application/octet-stream"
          labelID).1 := by
  have hb : rawBatchList.Batches ≠ [] := by
    unfold createBatchList at hbatch
    simp only [] at hbatch
    split at hbatch
    · cases hbatch
    · cases hbatch
      simp
  have hpos : batchList.length > 0 := List.length_pos.mpr hne
  have hlog := sendRequest_log lib self log BATCH_SUBMIT_API batchList
    CONTENT_TYPE_OCTET_STREAM labelID
  simp only [hpos, if_true] at hlog
  unfold sendTransaction
  simp only [hbuild, hbatch]
  cases hB : rawBatchList.Batches with
  | nil => exact absurd hB hb
  | cons batch rest =>
    simp only [hmarshal, gt_iff_lt, Nat.lt_irrefl, if_false]
    exact ⟨hlog, rfl⟩

/-- Witness of C10: a `set` of id `"abc"` with `wait = 0` through the sample client, whose
endpoint answers 200 with the body `ok`. -/
theorem sendTransaction_no_wait_witness :
    ∃ batchList,
      (sendTransaction sampleLib sampleClient 0 [] "set" "abc" "Napa" "-122.27" "38.57" 0).2
        = [Request.Post "http://127.0.0.1:8008/batches" "application/octet-stream" batchList] :=
  ⟨_, (sendTransaction_no_wait sampleLib sampleClient 0 [] "set" "abc" "Napa" "-122.27"
    "38.57" _ _ _ rfl rfl rfl (List.cons_ne_nil _ _)).1⟩

end client

/-! ## Distinct names and distinct addresses -/

theorem String_append_left_cancel (p a b : String) : p ++ a = p ++ b ↔ a = b := by
  constructor
  · intro h
    have hd := congrArg String.data h
    simp only [String.data_append] at hd
    exact String.ext (List.append_cancel_left hd)
  · intro h
    rw [h]

theorem sliceFrom_eq_lastChars (s : String) (h : s.length = 128) :
    sliceFrom s 64 = lastChars s 64 := by
  have h2 : s.data.length = 128 := h
  unfold sliceFrom lastChars
  rw [← drop_eq_last, h2]

/-- For all names `n1` and `n2`, the addresses the client derives differ exactly when the
last 64 characters of the two hashes differ, and so do the addresses the handler derives,
under every namespace. -/
theorem address_ne_iff_last64_ne (cl : client.Lib) (hl : handler.Lib) (ns : String)
    (n1 n2 : String) :
    (client.getAddress cl n1 ≠ client.getAddress cl n2
      ↔ lastChars (client.Sha512HashValue cl (stringBytes n1)) 64
          ≠ lastChars (client.Sha512HashValue cl (stringBytes n2)) 64)
    ∧ (handler.addressOf hl ns n1 ≠ handler.addressOf hl ns n2
      ↔ lastChars (handler.Hexdigest hl n1) 64 ≠ lastChars (handler.Hexdigest hl n2) 64) := by
  constructor
  · have h1 := sliceFrom_eq_lastChars _ (client.Sha512HashValue_length cl (stringBytes n1))
    have h2 := sliceFrom_eq_lastChars _ (client.Sha512HashValue_length cl (stringBytes n2))
    simp only [client.getAddress, client.FAMILY_VERB_ADDRESS_LENGTH, h1, h2, ne_eq,
      String_append_left_cancel]
  · have h1 := sliceFrom_eq_lastChars _ (handler.Hexdigest_length hl n1)
    have h2 := sliceFrom_eq_lastChars _ (handler.Hexdigest_length hl n2)
    have e1 : (handler.Hexdigest hl n1).length - 64 = 64 := by
      rw [handler.Hexdigest_length]
    have e2 : (handler.Hexdigest hl n2).length - 64 = 64 := by
      rw [handler.Hexdigest_length]
    simp only [handler.addressOf, e1, e2, h1, h2, ne_eq, String_append_left_cancel]

namespace handler

/-- C12: for a decodable payload with a non-empty id and the verb `"del"`, once the state read
has answered, `Apply` issues one write at the derived address whose value depends on the
prior state. When the read returned an entry for the address, the value is the encoding of
the empty record; when it returned none, the value is the encoding of the record `Apply`
builds from the payload, and the write is the one a `set` with the same payload issues. -/
theorem Apply_del_written_value (lib : Lib) (ns : String) (data : Bytes) (context : Context)
    (p : WineLabelPayload) (results : List (String × Bytes))
    (hdec : DecodeCBOR lib data = (none, p))
    (hid : p.WineLabelID ≠ "")
    (hverb : p.Verb = "del")
    (hget : context.GetState [addressOf lib ns p.WineLabelID] = .ok results) :
    (∀ prior, results.lookup (addressOf lib ns p.WineLabelID) = some prior →
      writes (Apply lib ns (some data) context).2
        = [[(addressOf lib ns p.WineLabelID, (EncodeCBOR lib Payload.zero).1)]])
    ∧ (results.lookup (addressOf lib ns p.WineLabelID) = none →
      writes (Apply lib ns (some data) context).2
        = [[(addressOf lib ns p.WineLabelID,
              (EncodeCBOR lib { WineLabelID := p.WineLabelID, PrintedAt := p.PrintedAt,
                                Longitude := p.Lattitude, Lattitude := p.Longitude }).1)]]
      ∧ writes (Apply lib ns (some data) context).2
        = writes (Apply { lib with loads := fun _ => .returned { p with Verb := "set" } none }
            ns (some data) context).2) := by
  have hid2 : p.WineLabelID.length ≠ 0 := by
    intro h
    exact hid (String.ext (List.eq_nil_of_length_eq_zero h))
  have hpresent : ∀ prior, results.lookup (addressOf lib ns p.WineLabelID) = some prior →
      writes (Apply lib ns (some data) context).2
        = [[(addressOf lib ns p.WineLabelID, (EncodeCBOR lib Payload.zero).1)]] := by
    intro prior hl
    unfold Apply
    simp only [hdec]
    simp only [hid2, hverb, hget, hl, if_false, if_true, or_true, not_true_eq_false]
    split
    · rfl
    · split <;> rfl
  have habsent : results.lookup (addressOf lib ns p.WineLabelID) = none →
      writes (Apply lib ns (some data) context).2
        = [[(addressOf lib ns p.WineLabelID,
              (EncodeCBOR lib { WineLabelID := p.WineLabelID, PrintedAt := p.PrintedAt,
                                Longitude := p.Lattitude, Lattitude := p.Longitude }).1)]] := by
    intro hl
    unfold Apply
    simp only [hdec]
    simp only [hid2, hverb, hget, hl, if_false, or_true, not_true_eq_false]
    split
    · rfl
    · split <;> rfl
  have hasset : results.lookup (addressOf lib ns p.WineLabelID) = none →
      writes (Apply { lib with loads := fun _ => .returned { p with Verb := "set" } none }
          ns (some data) context).2
        = [[(addressOf lib ns p.WineLabelID,
              (EncodeCBOR lib { WineLabelID := p.WineLabelID, PrintedAt := p.PrintedAt,
                                Longitude := p.Lattitude, Lattitude := p.Longitude }).1)]] := by
    intro hl
    have haddr : addressOf { lib with loads := fun _ => .returned { p with Verb := "set" } none }
        ns p.WineLabelID = addressOf lib ns p.WineLabelID := rfl
    have hdec2 : DecodeCBOR { lib with loads := fun _ => .returned { p with Verb := "set" } none }
        data = (none, { p with Verb := "set" }) := rfl
    unfold Apply
    simp only [hdec2, haddr]
    simp only [hid2, hget, hl, if_false, true_or, not_true_eq_false]
    split
    · rfl
    · split <;> rfl
  exact ⟨hpresent, fun hl => ⟨habsent hl, (habsent hl).trans (hasset hl).symm⟩⟩

/-- Witness of C12: the verb `"del"` for id `"abc"` against an empty store writes the
encoding of the record built from the payload, not the encoding of the empty record. -/
theorem Apply_del_written_value_witness :
    writes (Apply (sampleLib ⟨⟨"abc", "Napa", "-122.27", "38.57"⟩, "del"⟩) "5b7349" (some [1])
        (sampleContext [])).2
      = [[(addressOf (sampleLib ⟨⟨"abc", "Napa", "-122.27", "38.57"⟩, "del"⟩) "5b7349" "abc",
            (sampleDumps ⟨"abc", "Napa", "38.57", "-122.27"⟩).1)]]
    ∧ (sampleDumps ⟨"abc", "Napa", "38.57", "-122.27"⟩).1 ≠ (sampleDumps Payload.zero).1 :=
  ⟨((Apply_del_written_value (sampleLib ⟨⟨"abc", "Napa", "-122.27", "38.57"⟩, "del"⟩)
      "5b7349" [1] (sampleContext []) ⟨⟨"abc", "Napa", "-122.27", "38.57"⟩, "del"⟩ []
      rfl (by decide) rfl rfl).2 rfl).1,
   by decide⟩

end handler
